import Mathlib

/-!
Verification development for the Quantopian pipeline tutorial notebooks.

The notebooks build cross-sectional equity-selection expressions (factors,
filters, screens, masks, custom factors) on top of the external
`quantopian.pipeline` API and run them with `run_pipeline`.  The custom
factor `compute` methods (`StdDev`, `ThirtyDayMeanDifference`, `Momentum`)
are embedded here directly from the notebook source; the surrounding engine
(`Pipeline`, `run_pipeline`, `SimpleMovingAverage`, `AverageDollarVolume`,
comparison filters, `top`/`bottom`, masking) is not part of the repository,
so it is modelled from the specification's description of the API contract.

Numeric values are modelled as `Option ℚ`: `none` plays the role of numpy's
NaN / a missing value, and `some q` is an ordinary (finite) value.
-/

namespace PipelineTutorial

abbrev Asset := ℕ
abbrev Date := ℕ

/-- A per-(date, asset) numeric cell: `none` models NaN / missing data. -/
abbrev Value := Option ℚ

/-- A factor: a numeric value per asset per day (spec, Glossary). -/
abbrev Factor := Date → Asset → Value

/-- A filter: a boolean value per asset per day (spec, Glossary). -/
abbrev EquityFilter := Date → Asset → Bool

/-- The pricing fields of the `USEquityPricing` dataset referenced by the
notebooks (`close`, `open`, `high`, `low`, `volume`). -/
inductive USEquityPricing where
  | close
  | open_
  | high
  | low
  | volume
deriving DecidableEq, Repr

/-- Modelled from the spec: the external database backing a pipeline run.
It provides the finite list of security identifiers, which securities exist
in the database on each date, the daily pricing fields, and membership in
the built-in `QTradableStocksUS` universe filter. -/
structure DataBase where
  assets : List Asset
  nodup : assets.Nodup
  existsOn : Date → Asset → Bool
  close : Date → Asset → Value
  open_ : Date → Asset → Value
  high : Date → Asset → Value
  low : Date → Asset → Value
  volume : Date → Asset → Value
  qtus : Date → Asset → Bool

/-- The pricing data of a named `USEquityPricing` field. -/
def fieldData (db : DataBase) : USEquityPricing → Date → Asset → Value
  | .close => db.close
  | .open_ => db.open_
  | .high => db.high
  | .low => db.low
  | .volume => db.volume

/-! ### numpy-style NaN-aware arithmetic on `Option ℚ` -/

/-- Lift a binary rational operation to `Value`; NaN propagates. -/
def optBinop (f : ℚ → ℚ → ℚ) (x y : Value) : Value :=
  x.bind fun a => y.map fun b => f a b

def optAdd : Value → Value → Value := optBinop (· + ·)

def optSub : Value → Value → Value := optBinop (· - ·)

def optMul : Value → Value → Value := optBinop (· * ·)

def optDiv : Value → Value → Value := optBinop (· / ·)

/-- The non-NaN entries of a column. -/
def nonNaN (col : List Value) : List ℚ :=
  col.filterMap id

/-- The arithmetic mean of a list of rationals. -/
def meanOf (xs : List ℚ) : ℚ := xs.sum / xs.length

/-- The population variance (ddof = 0) of a list of rationals. -/
def varOf (xs : List ℚ) : ℚ :=
  (xs.map fun x => (x - meanOf xs) ^ 2).sum / xs.length

/-- numpy.nanmean of a column: the mean of the non-NaN entries, NaN when
there is no non-NaN entry. -/
def nanmean (col : List Value) : Value :=
  if (nonNaN col).isEmpty then none else some (meanOf (nonNaN col))

/-- numpy.nanvar of a column (population variance, ddof = 0), ignoring
NaN entries; NaN when there is no non-NaN entry. -/
def nanvar (col : List Value) : Value :=
  if (nonNaN col).isEmpty then none else some (varOf (nonNaN col))

/-- numpy.nanstd of a column: the square root of `nanvar`. -/
noncomputable def nanstd (col : List Value) : Option ℝ :=
  (nanvar col).map fun v => Real.sqrt (v : ℝ)

/-! ### Trailing windows

A `window_length`-by-N input window is a list of rows, oldest day first;
each row holds one `Value` per asset column. -/

abbrev WindowMatrix := List (List Value)

/-- Column `j` of a window matrix. -/
def column (j : ℕ) (m : WindowMatrix) : List Value :=
  m.map fun row => row.getD j none

/-- The dates making up a trailing window of length `L` ending at `d`. -/
def windowDates (L : ℕ) (d : Date) : List Date :=
  (List.range L).map fun i => d + 1 + i - L

/-- The trailing window of a single input series for one asset,
oldest day first. -/
def trailing (input : Date → Asset → Value) (L : ℕ) (d : Date) (a : Asset) :
    List Value :=
  (windowDates L d).map fun t => input t a

/-! ### Pipelines, screens and the run entry point

Modelled from the spec: "construct a pipeline object with named output
columns and an optional boolean screen; pass it plus a start/end date to a
run entry point; receive a table indexed by (date, asset) with one column
per requested output", and "Screen: a filter applied to restrict which
(date, asset) rows a pipeline emits."  The value type of the output
columns is a parameter `V` (rational-valued, real-valued and boolean
columns all occur in the notebooks). -/

structure Pipeline (V : Type) where
  columns : List (String × (Date → Asset → V))
  screen : Option EquityFilter

/-- The screen test a pipeline applies to a candidate row: a pipeline
without a screen lets every row through. -/
def screenPass {V : Type} (p : Pipeline V) (d : Date) (a : Asset) : Bool :=
  match p.screen with
  | none => true
  | some f => f d a

/-- The securities present in the database on a date. -/
def assetsOn (db : DataBase) (d : Date) : List Asset :=
  db.assets.filter fun a => db.existsOn d a

/-- The dates from `s` to `e` inclusive. -/
def dateRange (s e : Date) : List Date :=
  (List.range (e + 1 - s)).map fun i => s + i

/-- Modelled from the spec: the result table of a pipeline run — a header
naming one column per requested output, an index of (date, asset) pairs,
and the per-row column values. -/
structure Table (V : Type) where
  header : List String
  index : List (Date × Asset)
  values : Date → Asset → List V

/-- Modelled from the spec: the run entry point.  For each date in the
range and each security in the database on that date, a row is emitted
exactly when the screen lets it through; the columns are the pipeline's
named outputs. -/
def run_pipeline {V : Type} (db : DataBase) (p : Pipeline V) (s e : Date) :
    Table V :=
  { header := p.columns.map Prod.fst
    index :=
      (dateRange s e).flatMap fun d =>
        ((assetsOn db d).filter fun a => screenPass p d a).map fun a => (d, a)
    values := fun d a => p.columns.map fun c => c.2 d a }

/-! ### Factor and filter combinators

Modelled from the spec: factors are combined with arithmetic operators
(NaN propagating, as in numpy), filters with boolean operators, and
factors are turned into filters by comparison against a constant (a NaN
value compares as False, as in numpy). -/

def fsub (f g : Factor) : Factor := fun d a => optSub (f d a) (g d a)

def fdiv (f g : Factor) : Factor := fun d a => optDiv (f d a) (g d a)

/-- The filter `f > c`: False on NaN. -/
def fgt (f : Factor) (c : ℚ) : EquityFilter := fun d a =>
  match f d a with
  | some v => decide (c < v)
  | none => false

/-- The filter `f >= c`: False on NaN. -/
def fge (f : Factor) (c : ℚ) : EquityFilter := fun d a =>
  match f d a with
  | some v => decide (c ≤ v)
  | none => false

/-- The filter `f & g`. -/
def fand (f g : EquityFilter) : EquityFilter := fun d a => f d a && g d a

/-- The filter `f | g`. -/
def for_ (f g : EquityFilter) : EquityFilter := fun d a => f d a || g d a

/-- The trivial mask used when no `mask` argument is passed. -/
def noMask : EquityFilter := fun _ _ => true

/-- Modelled from the spec: `SimpleMovingAverage` — the mean of the
trailing window of its input, computed only for the assets its mask lets
through ("Mask: a filter restricting which assets a factor/filter
considers during its own computation"); a masked-out asset receives no
value. -/
def SimpleMovingAverage (input : Date → Asset → Value) (window_length : ℕ)
    (mask : EquityFilter) : Factor := fun d a =>
  if mask d a then nanmean (trailing input window_length d a) else none

/-- Modelled from the spec: `AverageDollarVolume` — the mean over the
trailing window of close price times volume, restricted by its mask. -/
def AverageDollarVolume (db : DataBase) (window_length : ℕ)
    (mask : EquityFilter) : Factor := fun d a =>
  if mask d a then
    nanmean (trailing (fun t b => optMul (db.close t b) (db.volume t b))
      window_length d a)
  else none

/-! ### Ranking filters: `top` and `bottom`

Modelled from the spec: `top n` (resp. `bottom n`) is the filter selecting
the `n` securities with the greatest (resp. least) factor values among the
securities in the database on the day whose factor value is defined; ties
are broken by asset identifier. -/

/-- Strict lexicographic "ranks above": greater value, or equal value and
smaller asset identifier. -/
def ranksAbove (p q : ℚ × Asset) : Bool :=
  decide (q.1 < p.1) || (decide (p.1 = q.1) && decide (p.2 < q.2))

/-- The (value, asset) pairs of the securities on the day with a defined
factor value. -/
def definedPairs (db : DataBase) (f : Factor) (d : Date) : List (ℚ × Asset) :=
  (assetsOn db d).filterMap fun b => (f d b).map fun v => (v, b)

/-- Modelled from the spec: the `top n` ranking filter. -/
def ftop (n : ℕ) (db : DataBase) (f : Factor) : EquityFilter := fun d a =>
  match f d a with
  | some va =>
      decide (a ∈ assetsOn db d) &&
        decide ((definedPairs db f d).countP (fun p => ranksAbove p (va, a)) < n)
  | none => false

/-- Modelled from the spec: the `bottom n` ranking filter. -/
def fbottom (n : ℕ) (db : DataBase) (f : Factor) : EquityFilter := fun d a =>
  match f d a with
  | some va =>
      decide (a ∈ assetsOn db d) &&
        decide ((definedPairs db f d).countP (fun p => ranksAbove (va, a) p) < n)
  | none => false

/-! ### Custom factor `compute` methods (embedded from the notebook source)

`out` is modelled as the list of per-asset-column outputs of one call of
`compute`; `N` is the number of asset columns of the input window. -/

/-- numpy.nanstd(values, axis=0): the columnwise `nanstd`. -/
noncomputable def nanstdAxis0 (N : ℕ) (values : WindowMatrix) :
    List (Option ℝ) :=
  (List.range N).map fun j => nanstd (column j values)

/-- numpy.nanmean(values, axis=0): the columnwise `nanmean`. -/
def nanmeanAxis0 (N : ℕ) (values : WindowMatrix) : List Value :=
  (List.range N).map fun j => nanmean (column j values)

namespace StdDev

/-- Lesson 7: `out[:] = numpy.nanstd(values, axis=0)`. -/
noncomputable def compute (N : ℕ) (values : WindowMatrix) : List (Option ℝ) :=
  nanstdAxis0 N values

end StdDev

/-- Elementwise matrix difference `close - open` (NaN propagating). -/
def matSub (x y : WindowMatrix) : WindowMatrix :=
  x.zipWith (fun rx ry => rx.zipWith optSub ry) y

namespace ThirtyDayMeanDifference

/-- Lesson 7: the class attribute `inputs = [USEquityPricing.close,
USEquityPricing.open]` (the default inputs). -/
def inputs : List USEquityPricing := [.close, .open_]

/-- Lesson 7: the class attribute `window_length = 30` (the default
window length). -/
def window_length : ℕ := 30

/-- Lesson 7: `out[:] = numpy.nanmean(close - open, axis=0)`. -/
def compute (N : ℕ) (close openv : WindowMatrix) : List Value :=
  nanmeanAxis0 N (matSub close openv)

end ThirtyDayMeanDifference

namespace Momentum

/-- Lesson 7: `out[:] = close[-1] / close[0]` — the elementwise quotient of
the last row of the window by its first row. -/
def compute (N : ℕ) (close : WindowMatrix) : List Value :=
  (List.range N).map fun j =>
    optDiv ((close.getLastD []).getD j none) ((close.headD []).getD j none)

end Momentum

/-- The `Momentum` custom factor as a per-asset factor: its `compute`
applied to the single asset column given by the trailing close-price
window. -/
def MomentumFactor (db : DataBase) (window_length : ℕ) : Factor := fun d a =>
  (Momentum.compute 1 ((trailing db.close window_length d a).map fun v => [v])).getD
    0 none

/-! ### Lesson constructions (embedded from the notebook source) -/

/-- Lesson "Creating a Pipeline" (`part_000`): `def make_pipeline():
return Pipeline()` — a pipeline with no columns and no screen.  The value
type is irrelevant since there are no columns. -/
def make_pipeline0 : Pipeline Value := ⟨[], none⟩

namespace Lesson7A

/-- Lesson 7: `dollar_volume = AverageDollarVolume(window_length=60)`. -/
def dollar_volume (db : DataBase) : Factor := AverageDollarVolume db 60 noMask

/-- Lesson 7: `high_dollar_volume = (dollar_volume > 20000000)`. -/
def high_dollar_volume (db : DataBase) : EquityFilter :=
  fgt (dollar_volume db) 20000000

/-- Lesson 7: `mean_close_60 = SimpleMovingAverage(inputs=[USEquityPricing.close],
window_length=60, mask=high_dollar_volume)`. -/
def mean_close_60 (db : DataBase) : Factor :=
  SimpleMovingAverage db.close 60 (high_dollar_volume db)

/-- Lesson 7: `mean_close_30 = SimpleMovingAverage(inputs=[USEquityPricing.close],
window_length=30, mask=high_dollar_volume)`. -/
def mean_close_30 (db : DataBase) : Factor :=
  SimpleMovingAverage db.close 30 (high_dollar_volume db)

/-- Lesson 7: `percent_difference = (mean_close_30 - mean_close_60) /
mean_close_60`. -/
def percent_difference (db : DataBase) : Factor :=
  fdiv (fsub (mean_close_30 db) (mean_close_60 db)) (mean_close_60 db)

/-- Lesson 7: `Pipeline(columns = {'percent difference': percent_difference})`. -/
def make_pipeline (db : DataBase) : Pipeline Value :=
  ⟨[("percent difference", percent_difference db)], none⟩

end Lesson7A

namespace Lesson7B

/-- Lesson 7: `thirty_day_momentum = Momentum(window_length=30)`. -/
def thirty_day_momentum (db : DataBase) : Factor := MomentumFactor db 30

/-- Lesson 7: `sixty_day_momentum = Momentum(window_length=60)`. -/
def sixty_day_momentum (db : DataBase) : Factor := MomentumFactor db 60

/-- Lesson 7: `positive_momentum = ((thirty_day_momentum >= 0) &
(sixty_day_momentum >= 0))`. -/
def positive_momentum (db : DataBase) : EquityFilter :=
  fand (fge (thirty_day_momentum db) 0) (fge (sixty_day_momentum db) 0)

/-- Lesson 7: `std_dev = StdDev(inputs=[USEquityPricing.close],
window_length=5)`, as a per-asset factor. -/
noncomputable def std_dev (db : DataBase) : Date → Asset → Option ℝ :=
  fun d a =>
    (StdDev.compute 1 ((trailing db.close 5 d a).map fun v => [v])).getD 0 none

/-- Lesson 7: the final pipeline — columns `std dev`, `thirty day
momentum`, `sixty day momentum`, screened by `positive_momentum`. -/
noncomputable def make_pipeline (db : DataBase) : Pipeline (Option ℝ) :=
  ⟨[("std dev", std_dev db),
    ("thirty day momentum", fun d a =>
      (thirty_day_momentum db d a).map fun q => (q : ℝ)),
    ("sixty day momentum", fun d a =>
      (sixty_day_momentum db d a).map fun q => (q : ℝ))],
   some (positive_momentum db)⟩

end Lesson7B

namespace Lesson11

/-- Lesson 11: `base_universe = QTradableStocksUS()`. -/
def base_universe (db : DataBase) : EquityFilter := db.qtus

/-- Lesson 11: `mean_30 = SimpleMovingAverage(inputs=[USEquityPricing.close],
window_length=30, mask=base_universe)`. -/
def mean_30 (db : DataBase) : Factor :=
  SimpleMovingAverage db.close 30 (base_universe db)

/-- Lesson 11: `mean_60 = SimpleMovingAverage(inputs=[USEquityPricing.close],
window_length=60, mask=base_universe)`. -/
def mean_60 (db : DataBase) : Factor :=
  SimpleMovingAverage db.close 60 (base_universe db)

/-- Lesson 11: `percent_difference = (mean_30 - mean_60) / mean_60`. -/
def percent_difference (db : DataBase) : Factor :=
  fdiv (fsub (mean_30 db) (mean_60 db)) (mean_60 db)

/-- Lesson 11: `shorts = percent_difference.top(50)`. -/
def shorts (db : DataBase) : EquityFilter := ftop 50 db (percent_difference db)

/-- Lesson 11: `longs = percent_difference.bottom(50)`. -/
def longs (db : DataBase) : EquityFilter :=
  fbottom 50 db (percent_difference db)

/-- Lesson 11: `securities_to_trade = (shorts | longs)`. -/
def securities_to_trade (db : DataBase) : EquityFilter :=
  for_ (shorts db) (longs db)

/-- Lesson 11: `Pipeline(columns={'longs': longs, 'shorts': shorts},
screen=securities_to_trade)`. -/
def make_pipeline (db : DataBase) : Pipeline Bool :=
  ⟨[("longs", fun d a => longs db d a), ("shorts", fun d a => shorts db d a)],
   some (securities_to_trade db)⟩

/-- The number of securities on the day with a defined
`percent_difference` value. -/
def definedCount (db : DataBase) (d : Date) : ℕ :=
  (definedPairs db (percent_difference db) d).length

end Lesson11

/-! ### Deprecation warnings

Modelled from the spec: "a deprecation warning emitted by the external
library when referencing a field scheduled for removal, which is
informational output, not handled logic."  A run is modelled together with
the warnings it prints; the run itself is a total function (no exception
is raised) and the warnings do not enter the result table. -/

/-- Modelled from the spec: the Morningstar fields scheduled for removal
whose referencing makes the library emit a deprecation warning. -/
def deprecatedFields : List String := ["limited_partnership"]

/-- The Morningstar `Fundamentals` fields referenced by the Lesson 11
`tradeable_stocks` construction (`security_type`, `is_depositary_receipt`,
`exchange_id`, `symbol`, `standard_name`, `limited_partnership`,
`market_cap`). -/
def referencedFundamentalsFields : List String :=
  ["security_type", "is_depositary_receipt", "exchange_id", "symbol",
   "standard_name", "limited_partnership", "market_cap"]

/-- The deprecation warnings a run prints: one per referenced deprecated
field. -/
def deprecationWarnings (fields : List String) : List String :=
  (fields.filter fun f => deprecatedFields.contains f).map fun f =>
    "Fundamentals." ++ f ++ " is deprecated"

/-- Modelled from the spec: a pipeline run together with its informational
warning output.  The result table is exactly the one `run_pipeline`
returns, and the function is total: referencing a deprecated field never
raises an exception. -/
def runWithWarnings {V : Type} (db : DataBase) (p : Pipeline V)
    (fields : List String) (s e : Date) : Table V × List String :=
  (run_pipeline db p s e, deprecationWarnings fields)

/-- A cell holding a strictly positive value (and not NaN). -/
def posVal (x : Value) : Bool :=
  match x with
  | some q => decide (0 < q)
  | none => false

/-- A pair of cells both holding values with the first at least the second. -/
def geVal (p : Value × Value) : Bool :=
  match p with
  | (some h, some l) => decide (l ≤ h)
  | _ => false

/-! ### A small concrete database, used to evaluate the theorems on
concrete inputs -/

/-- A two-security database with constant prices: security `a` has close
price `a + 1` on every date, and every other field is constantly `1`
(volume, low) or as listed; both securities exist on every date and are in
the tradable universe. -/
def sampleDB : DataBase :=
  ⟨[0, 1], by decide, fun _ _ => true,
   fun _ a => some ((a : ℚ) + 1), fun _ _ => some 1, fun _ _ => some 2,
   fun _ _ => some 1, fun _ _ => some 1, fun _ _ => true⟩

/-! ### Helper lemmas -/

theorem mem_run_index {V : Type} (db : DataBase) (p : Pipeline V)
    (s e d : Date) (a : Asset) :
    (d, a) ∈ (run_pipeline db p s e).index ↔
      d ∈ dateRange s e ∧ a ∈ assetsOn db d ∧ screenPass p d a = true := by
  simp only [run_pipeline, List.mem_flatMap, List.mem_map, List.mem_filter,
    Prod.mk.injEq]
  constructor
  · rintro ⟨d', hd', a', ⟨ha', hs⟩, hda, haa⟩
    subst hda; subst haa
    exact ⟨hd', ha', hs⟩
  · rintro ⟨hd, ha, hs⟩
    exact ⟨d, hd, a, ⟨ha, hs⟩, rfl, rfl⟩

theorem getD_map_range {α : Type} (g : ℕ → α) (N j : ℕ) (x : α)
    (hj : j < N) : (((List.range N).map g).getD j x) = g j := by
  rw [List.getD_eq_getElem?_getD, List.getElem?_map, List.getElem?_range hj]
  rfl

theorem optSub_none_right (x : Value) : optSub x none = none := by
  cases x <;> rfl

theorem getD_zipWith_optSub (rx ry : List Value) (j : ℕ) :
    (rx.zipWith optSub ry).getD j none =
      optSub (rx.getD j none) (ry.getD j none) := by
  induction rx generalizing ry j with
  | nil => simp [optSub, optBinop]
  | cons x rx ih =>
    cases ry with
    | nil =>
      simp only [List.zipWith_nil_right, List.getD_nil, optSub_none_right]
    | cons y ry =>
      cases j with
      | zero => simp
      | succ j => simpa using ih ry j

theorem column_matSub (x y : WindowMatrix) (j : ℕ) :
    column j (matSub x y) = (x.map fun r => r.getD j none).zipWith optSub
      (y.map fun r => r.getD j none) := by
  unfold column matSub
  rw [List.map_zipWith, List.zipWith_map]
  simp only [getD_zipWith_optSub]

theorem nanmean_nonneg_of (col : List Value) (hne : col ≠ [])
    (h : ∀ x ∈ col, ∃ q, x = some q ∧ 0 ≤ q) :
    ∃ v, nanmean col = some v ∧ 0 ≤ v := by
  have hxs : nonNaN col ≠ [] := by
    cases col with
    | nil => exact absurd rfl hne
    | cons x t =>
      obtain ⟨q, hq, _⟩ := h x (List.mem_cons_self x t)
      subst hq
      simp [nonNaN]
  have hnn : ∀ q ∈ nonNaN col, 0 ≤ q := by
    intro q hq
    obtain ⟨x, hx, hxq⟩ := List.mem_filterMap.1 hq
    obtain ⟨r, hr, hrpos⟩ := h x hx
    subst hr
    obtain rfl : r = q := by simpa using hxq
    exact hrpos
  refine ⟨meanOf (nonNaN col), ?_, ?_⟩
  · simp [nanmean, List.isEmpty_iff, hxs]
  · unfold meanOf
    exact div_nonneg (List.sum_nonneg hnn) (by positivity)

theorem momentum_compute_getD (N : ℕ) (close : WindowMatrix) (j : ℕ)
    (hj : j < N) :
    (Momentum.compute N close).getD j none =
      optDiv ((column j close).getLastD none) ((column j close).headD none) := by
  unfold Momentum.compute
  rw [getD_map_range _ _ _ _ hj]
  unfold column
  congr 1
  · rw [List.getLastD_eq_getLast?, List.getLastD_eq_getLast?,
      List.getLast?_map]
    cases close.getLast? <;> rfl
  · rw [List.headD_eq_head?_getD, List.headD_eq_head?_getD, List.head?_map]
    cases close.head? <;> rfl

theorem momentumFactor_eq (db : DataBase) (L : ℕ) (d : Date) (a : Asset) :
    MomentumFactor db L d a =
      optDiv ((trailing db.close L d a).getLastD none)
        ((trailing db.close L d a).headD none) := by
  unfold MomentumFactor
  rw [momentum_compute_getD 1 _ 0 Nat.one_pos]
  have hcol : column 0 ((trailing db.close L d a).map fun v => [v]) =
      trailing db.close L d a := by
    unfold column
    rw [List.map_map]
    have hid : ((fun row : List Value => row.getD 0 none) ∘ fun v : Value => [v]) = id := by
      funext v
      rfl
    rw [hid, List.map_id]
  rw [hcol]

theorem momentum_pos (col : List Value) (hne : col ≠ [])
    (hall : col.all posVal = true) :
    ∃ v, optDiv (col.getLastD none) (col.headD none) = some v ∧ 0 < v := by
  have hposOf : ∀ x ∈ col, ∃ q, x = some q ∧ 0 < q := by
    intro x hx
    have := (List.all_eq_true.1 hall) x hx
    cases x with
    | none => exact absurd this (by simp [posVal])
    | some q => exact ⟨q, rfl, by simpa [posVal] using this⟩
  obtain ⟨y, hy⟩ := Option.isSome_iff_exists.1
    (List.getLast?_isSome.2 hne)
  obtain ⟨x, hx⟩ := Option.isSome_iff_exists.1 (List.head?_isSome.2 hne)
  obtain ⟨qy, hqy, hqypos⟩ := hposOf y (List.mem_of_getLast?_eq_some hy)
  obtain ⟨qx, hqx, hqxpos⟩ := hposOf x (List.mem_of_mem_head? hx)
  subst hqy; subst hqx
  refine ⟨qy / qx, ?_, div_pos hqypos hqxpos⟩
  rw [List.getLastD_eq_getLast?, List.headD_eq_head?_getD, hy, hx]
  rfl

theorem countP_length_split {α : Type} (l : List α) (p : α → Bool) :
    l.length = l.countP p + l.countP (fun x => !(p x)) := by
  induction l with
  | nil => simp
  | cons x t ih =>
    cases h : p x <;> simp [List.countP_cons, h, ih] <;> omega

theorem countP_or_le {α : Type} (l : List α) (p q : α → Bool) :
    l.countP (fun x => p x || q x) ≤ l.countP p + l.countP q := by
  induction l with
  | nil => simp
  | cons x t ih =>
    cases hp : p x <;> cases hq : q x <;>
      simp [List.countP_cons, hp, hq] <;> omega

theorem ranksAbove_total (p q : ℚ × ℕ) (h : p.2 ≠ q.2) :
    ranksAbove p q = true ∨ ranksAbove q p = true := by
  unfold ranksAbove
  rcases lt_trichotomy p.1 q.1 with h1 | h1 | h1
  · right
    simp [h1]
  · rcases Nat.lt_or_ge p.2 q.2 with h2 | h2
    · left
      simp [h1, h2]
    · right
      have h2' : q.2 < p.2 := lt_of_le_of_ne h2 (Ne.symm h)
      simp [h1.symm, h2']
  · left
    simp [h1]

theorem definedPairs_map_snd (db : DataBase) (f : Factor) (d : Date) :
    (definedPairs db f d).map Prod.snd =
      (assetsOn db d).filter fun b => (f d b).isSome := by
  unfold definedPairs
  induction assetsOn db d with
  | nil => simp
  | cons b t ih => cases h : f d b <;> simp [h, ih]

theorem assetsOn_nodup (db : DataBase) (d : Date) : (assetsOn db d).Nodup :=
  db.nodup.filter _

theorem definedPairs_snd_nodup (db : DataBase) (f : Factor) (d : Date) :
    ((definedPairs db f d).map Prod.snd).Nodup := by
  rw [definedPairs_map_snd]
  exact (assetsOn_nodup db d).filter _

theorem mem_definedPairs (db : DataBase) (f : Factor) (d : Date) (a : Asset)
    (hmem : a ∈ assetsOn db d) (va : ℚ) (hv : f d a = some va) :
    (va, a) ∈ definedPairs db f d :=
  List.mem_filterMap.2 ⟨a, hmem, by simp [hv]⟩

theorem countP_eq_one_of_nodup {α : Type} [DecidableEq α] (l : List α)
    (hnd : l.Nodup) (a : α) (ha : a ∈ l) :
    l.countP (fun x => decide (x = a)) = 1 := by
  induction l with
  | nil => cases ha
  | cons x t ih =>
    rcases List.mem_cons.1 ha with rfl | hat
    · have hnot : a ∉ t := (List.nodup_cons.1 hnd).1
      have hzero : t.countP (fun y => decide (y = a)) = 0 :=
        List.countP_eq_zero.2 fun y hy => by
          simp only [decide_eq_true_eq]
          exact fun h => hnot (h ▸ hy)
      simp [List.countP_cons, hzero]
    · have hxa : x ≠ a := fun h => (List.nodup_cons.1 hnd).1 (h ▸ hat)
      simp [List.countP_cons, hxa, ih (List.nodup_cons.1 hnd).2 hat]

theorem rank_partition (D : List (ℚ × ℕ)) (hsnd : (D.map Prod.snd).Nodup)
    (pa : ℚ × ℕ) (hpa : pa ∈ D) :
    D.length ≤ 1 + D.countP (fun p => ranksAbove p pa) +
      D.countP (fun p => ranksAbove pa p) := by
  have hnd : D.Nodup := List.Nodup.of_map _ hsnd
  have h1 : D.countP (fun q => decide (q = pa)) = 1 :=
    countP_eq_one_of_nodup D hnd pa hpa
  have h2 : ∀ q ∈ D, (!(decide (q = pa))) = true →
      (ranksAbove q pa || ranksAbove pa q) = true := by
    intro q hq hne
    have hqpa : q ≠ pa := by simpa using hne
    have hsnd_ne : q.2 ≠ pa.2 := fun hs =>
      hqpa (List.inj_on_of_nodup_map hsnd hq hpa hs)
    rcases ranksAbove_total q pa hsnd_ne with h | h <;> simp [h]
  calc D.length
      = D.countP (fun q => decide (q = pa)) +
          D.countP (fun q => !(decide (q = pa))) :=
        countP_length_split D _
    _ ≤ 1 + D.countP (fun q => ranksAbove q pa || ranksAbove pa q) := by
        rw [h1]
        exact Nat.add_le_add_left (List.countP_mono_left h2) 1
    _ ≤ 1 + (D.countP (fun p => ranksAbove p pa) +
          D.countP (fun p => ranksAbove pa p)) :=
        Nat.add_le_add_left (countP_or_le D _ _) 1
    _ = 1 + D.countP (fun p => ranksAbove p pa) +
          D.countP (fun p => ranksAbove pa p) := by omega


theorem varOf_nonneg (xs : List ℚ) : 0 ≤ varOf xs := by
  unfold varOf
  apply div_nonneg
  · apply List.sum_nonneg
    intro x hx
    obtain ⟨y, _, rfl⟩ := List.mem_map.1 hx
    positivity
  · positivity

theorem zipWith_optSub_nonneg (xs ys : List Value)
    (hlen : xs.length = ys.length)
    (hall : (xs.zip ys).all geVal = true) :
    ∀ x ∈ xs.zipWith optSub ys, ∃ q, x = some q ∧ 0 ≤ q := by
  induction xs generalizing ys with
  | nil => simp
  | cons x xs ih =>
    cases ys with
    | nil => simp at hlen
    | cons y ys =>
      simp only [List.zip_cons_cons, List.all_cons, Bool.and_eq_true] at hall
      obtain ⟨hxy, hrest⟩ := hall
      intro z hz
      simp only [List.zipWith_cons_cons, List.mem_cons] at hz
      rcases hz with rfl | hz
      · cases x with
        | none => simp [geVal] at hxy
        | some h =>
          cases y with
          | none => simp [geVal] at hxy
          | some l =>
            refine ⟨h - l, rfl, ?_⟩
            simp only [geVal, decide_eq_true_eq] at hxy
            linarith
      · exact ih ys (by simpa using hlen) hrest z hz

/-! ### The claims -/

/-- C1: For every pipeline constructed with a screen filter and every run
over a date range, the result table emits exactly those (date, asset) rows
for which the screen filter evaluates to True on that date — a row is in
the index iff its date is in the range, its asset is in the database on
that date, and the screen is True there — and omits every row for which
the screen evaluates to False. -/
theorem screen_emits_exactly_passing_rows {V : Type} (db : DataBase)
    (cols : List (String × (Date → Asset → V))) (f : EquityFilter)
    (s e d : Date) (a : Asset) :
    ((d, a) ∈ (run_pipeline db (Pipeline.mk cols (some f)) s e).index ↔
      d ∈ dateRange s e ∧ a ∈ assetsOn db d ∧ f d a = true) ∧
    (f d a = false →
      (d, a) ∉ (run_pipeline db (Pipeline.mk cols (some f)) s e).index) := by
  constructor
  · exact mem_run_index db ⟨cols, some f⟩ s e d a
  · intro hfalse hmem
    have h := ((mem_run_index db ⟨cols, some f⟩ s e d a).1 hmem).2.2
    rw [show screenPass ⟨cols, some f⟩ d a = f d a from rfl, hfalse] at h
    cases h

/-- Witness for C1 at a concrete database and screen: the passing row is
emitted and the failing row is omitted. -/
theorem screen_emits_exactly_passing_rows_witness :
    (0, 1) ∈ (run_pipeline sampleDB
      (Pipeline.mk ([] : List (String × (Date → Asset → Value)))
        (some fun _ a => decide (a = 1))) 0 0).index ∧
    (0, 0) ∉ (run_pipeline sampleDB
      (Pipeline.mk ([] : List (String × (Date → Asset → Value)))
        (some fun _ a => decide (a = 1))) 0 0).index :=
  ⟨(screen_emits_exactly_passing_rows sampleDB []
      (fun _ a => decide (a = 1)) 0 0 0 1).1.mpr (by decide),
   (screen_emits_exactly_passing_rows sampleDB []
      (fun _ a => decide (a = 1)) 0 0 0 0).2 (by decide)⟩

/-- C2: `run_pipeline` returns a table indexed by (date, asset) pairs with
exactly one column per named output column of the pipeline; running the
pipeline constructed with no columns and no screen (`make_pipeline0`)
returns a table with zero columns whose index for each date in the range
contains exactly the securities in the database on that date. -/
theorem run_pipeline_table_shape {V : Type} (db : DataBase) (p : Pipeline V)
    (s e : Date) :
    (run_pipeline db p s e).header = p.columns.map Prod.fst ∧
    (∀ d a, ((run_pipeline db p s e).values d a).length = p.columns.length) ∧
    (run_pipeline db make_pipeline0 s e).header = [] ∧
    (∀ d a, (d, a) ∈ (run_pipeline db make_pipeline0 s e).index ↔
      d ∈ dateRange s e ∧ a ∈ assetsOn db d) := by
  refine ⟨rfl, fun d a => by simp [run_pipeline], rfl, fun d a => ?_⟩
  rw [mem_run_index]
  simp [make_pipeline0, screenPass]

/-- Witness for C2 at a concrete database: the empty pipeline's table has
zero columns and its index holds every security on the queried date. -/
theorem run_pipeline_table_shape_witness :
    (run_pipeline sampleDB make_pipeline0 7 7).header = [] ∧
    ((7, 0) ∈ (run_pipeline sampleDB make_pipeline0 7 7).index ↔
      7 ∈ dateRange 7 7 ∧ 0 ∈ assetsOn sampleDB 7) :=
  ⟨(run_pipeline_table_shape sampleDB make_pipeline0 7 7).2.2.1,
   (run_pipeline_table_shape sampleDB make_pipeline0 7 7).2.2.2 7 0⟩

/-- C3: A factor constructed with a mask argument computes only for the
assets for which the mask is True on the day: if the mask is False the
factor produces no value (`none`), and this restriction is applied before
combination — in the Lesson 7 construction, a security outside
`high_dollar_volume` gets no value from either masked moving average, and
therefore no value from the combined `percent_difference` expression. -/
theorem mask_restricts_factor_computation :
    (∀ (input : Date → Asset → Value) (L : ℕ) (mask : EquityFilter)
      (d : Date) (a : Asset), mask d a = false →
        SimpleMovingAverage input L mask d a = none) ∧
    (∀ (db : DataBase) (d : Date) (a : Asset),
      Lesson7A.high_dollar_volume db d a = false →
        Lesson7A.mean_close_30 db d a = none ∧
        Lesson7A.mean_close_60 db d a = none ∧
        Lesson7A.percent_difference db d a = none) := by
  have hsma : ∀ (input : Date → Asset → Value) (L : ℕ) (mask : EquityFilter)
      (d : Date) (a : Asset), mask d a = false →
        SimpleMovingAverage input L mask d a = none := by
    intro input L mask d a h
    simp [SimpleMovingAverage, h]
  refine ⟨hsma, fun db d a h => ?_⟩
  have h30 : Lesson7A.mean_close_30 db d a = none :=
    hsma db.close 30 (Lesson7A.high_dollar_volume db) d a h
  have h60 : Lesson7A.mean_close_60 db d a = none :=
    hsma db.close 60 (Lesson7A.high_dollar_volume db) d a h
  refine ⟨h30, h60, ?_⟩
  simp [Lesson7A.percent_difference, fdiv, fsub, h30, h60, optDiv, optSub,
    optBinop]

set_option maxRecDepth 10000 in
/-- Witness for C3 at a concrete database whose dollar volume is below the
Lesson 7 threshold everywhere, so the mask is False. -/
theorem mask_restricts_factor_computation_witness :
    SimpleMovingAverage sampleDB.close 30 (fun _ _ => false) 0 0 = none ∧
    Lesson7A.percent_difference sampleDB 0 0 = none :=
  ⟨mask_restricts_factor_computation.1 sampleDB.close 30
      (fun _ _ => false) 0 0 rfl,
   (mask_restricts_factor_computation.2 sampleDB 0 0
      (by with_unfolding_all decide)).2.2⟩

/-- C4: The `StdDev` custom factor's compute method is a trailing-window
standard-deviation calculation: for every window input, `out` has exactly
one entry per asset column, each column's entry is `nanstd` of that column
(NaN entries ignored), and nothing else is written.  Concretely, a column
with no non-NaN entry gets NaN, and a column with non-NaN entries `xs`
gets the non-negative real number whose square is the population variance
of `xs`. -/
theorem stddev_compute_is_columnwise_nanstd (values : WindowMatrix)
    (N j : ℕ) (hj : j < N) :
    (StdDev.compute N values).length = N ∧
    (StdDev.compute N values).getD j none = nanstd (column j values) ∧
    (nonNaN (column j values) = [] →
      (StdDev.compute N values).getD j none = none) ∧
    (nonNaN (column j values) ≠ [] →
      ∃ v : ℝ, (StdDev.compute N values).getD j none = some v ∧ 0 ≤ v ∧
        v ^ 2 = ((varOf (nonNaN (column j values)) : ℚ) : ℝ)) := by
  have hget : (StdDev.compute N values).getD j none =
      nanstd (column j values) := by
    unfold StdDev.compute nanstdAxis0
    exact getD_map_range _ N j none hj
  refine ⟨by simp [StdDev.compute, nanstdAxis0], hget, ?_, ?_⟩
  · intro hempty
    rw [hget]
    simp [nanstd, nanvar, hempty]
  · intro hne
    have hvar : nanvar (column j values) =
        some (varOf (nonNaN (column j values))) := by
      simp [nanvar, List.isEmpty_iff, hne]
    refine ⟨Real.sqrt ((varOf (nonNaN (column j values)) : ℚ) : ℝ), ?_,
      Real.sqrt_nonneg _, ?_⟩
    · rw [hget]
      simp [nanstd, hvar]
    · exact Real.sq_sqrt (by exact_mod_cast varOf_nonneg _)

/-- Witness for C4 at the concrete window `[[1], [3]]`: the single output
entry is the non-negative square root of the variance of `[1, 3]`. -/
theorem stddev_compute_is_columnwise_nanstd_witness :
    (StdDev.compute 1 [[some 1], [some 3]]).length = 1 ∧
    ∃ v : ℝ, (StdDev.compute 1 [[some 1], [some 3]]).getD 0 none = some v ∧
      0 ≤ v ∧ v ^ 2 = ((varOf (nonNaN (column 0 [[some 1], [some 3]])) : ℚ) : ℝ) :=
  ⟨(stddev_compute_is_columnwise_nanstd [[some 1], [some 3]] 1 0
      (by decide)).1,
   (stddev_compute_is_columnwise_nanstd [[some 1], [some 3]] 1 0
      (by decide)).2.2.2 (by decide)⟩

/-- C5: The `ThirtyDayMeanDifference` custom factor defaults to inputs
`[close, open]` and window length 30, and its compute method writes, for
every asset column, the NaN-ignoring mean of the elementwise difference
of the first input minus the second input (numpy.nanmean of
`close - open` along axis 0), one output entry per asset column. -/
theorem thirty_day_mean_difference_spec (close openv : WindowMatrix)
    (N j : ℕ) (hj : j < N) :
    ThirtyDayMeanDifference.inputs =
      [USEquityPricing.close, USEquityPricing.open_] ∧
    ThirtyDayMeanDifference.window_length = 30 ∧
    (ThirtyDayMeanDifference.compute N close openv).length = N ∧
    column j (matSub close openv) =
      (close.map fun r => r.getD j none).zipWith optSub
        (openv.map fun r => r.getD j none) ∧
    (ThirtyDayMeanDifference.compute N close openv).getD j none =
      nanmean (column j (matSub close openv)) := by
  refine ⟨rfl, rfl, by simp [ThirtyDayMeanDifference.compute, nanmeanAxis0],
    column_matSub close openv j, ?_⟩
  unfold ThirtyDayMeanDifference.compute nanmeanAxis0
  exact getD_map_range _ N j none hj

/-- Witness for C5 at the concrete windows `close = [[3]]`,
`open = [[1]]`: the output entry is the mean of the difference column. -/
theorem thirty_day_mean_difference_spec_witness :
    ThirtyDayMeanDifference.window_length = 30 ∧
    (ThirtyDayMeanDifference.compute 1 [[some 3]] [[some 1]]).getD 0 none =
      nanmean (column 0 (matSub [[some 3]] [[some 1]])) :=
  ⟨(thirty_day_mean_difference_spec [[some 3]] [[some 1]] 1 0
      (by decide)).2.1,
   (thirty_day_mean_difference_spec [[some 3]] [[some 1]] 1 0
      (by decide)).2.2.2.2⟩

/-- C6: The `Momentum` custom factor's compute method writes, for every
asset column, the last row of the trailing close-price window divided by
the first row of that window — the most recent close price divided by the
close price from the start of the window — one output entry per asset
column. -/
theorem momentum_compute_last_over_first (close : WindowMatrix) (N j : ℕ)
    (hj : j < N) :
    (Momentum.compute N close).length = N ∧
    (Momentum.compute N close).getD j none =
      optDiv ((column j close).getLastD none) ((column j close).headD none) :=
  ⟨by simp [Momentum.compute], momentum_compute_getD N close j hj⟩

/-- Witness for C6 at the concrete window `[[2], [6]]`: the output is the
last close over the first close. -/
theorem momentum_compute_last_over_first_witness :
    (Momentum.compute 1 [[some 2], [some 6]]).getD 0 none =
      optDiv ((column 0 [[some 2], [some 6]]).getLastD none)
        ((column 0 [[some 2], [some 6]]).headD none) :=
  (momentum_compute_last_over_first [[some 2], [some 6]] 1 0 (by decide)).2

/-- C7: When a pipeline references the Morningstar `limited_partnership`
field (as the Lesson 11 `tradeable_stocks` construction does), the run
emits a deprecation warning as informational output only: the result
table component equals the plain `run_pipeline` result unchanged, and the
run is a total function, so no exception is raised and no handling logic
runs. -/
theorem limited_partnership_deprecation_informational {V : Type}
    (db : DataBase) (p : Pipeline V) (s e : Date) :
    (runWithWarnings db p referencedFundamentalsFields s e).1 =
      run_pipeline db p s e ∧
    "Fundamentals.limited_partnership is deprecated" ∈
      (runWithWarnings db p referencedFundamentalsFields s e).2 := by
  refine ⟨rfl, ?_⟩
  simp [runWithWarnings, deprecationWarnings, referencedFundamentalsFields,
    deprecatedFields]

/-- Witness for C7 at a concrete database and pipeline. -/
theorem limited_partnership_deprecation_informational_witness :
    (runWithWarnings sampleDB make_pipeline0
      referencedFundamentalsFields 0 0).1 =
      run_pipeline sampleDB make_pipeline0 0 0 ∧
    "Fundamentals.limited_partnership is deprecated" ∈
      (runWithWarnings sampleDB make_pipeline0
        referencedFundamentalsFields 0 0).2 :=
  limited_partnership_deprecation_informational sampleDB make_pipeline0 0 0

/-- C8: For an asset whose close prices over the trailing 30- and 60-day
windows are all strictly positive, the `Momentum` factor outputs are
strictly positive, hence the `positive_momentum` filter
`(thirty_day_momentum >= 0) & (sixty_day_momentum >= 0)` is True for the
asset, and the screen built from it does not exclude the asset: the row
is emitted by the Lesson 7 pipeline run. -/
theorem positive_prices_give_positive_momentum (db : DataBase) (d : Date)
    (a : Asset) (ha : a ∈ assetsOn db d)
    (h30 : (trailing db.close 30 d a).all posVal = true)
    (h60 : (trailing db.close 60 d a).all posVal = true) :
    (∃ v, Lesson7B.thirty_day_momentum db d a = some v ∧ 0 < v) ∧
    (∃ v, Lesson7B.sixty_day_momentum db d a = some v ∧ 0 < v) ∧
    Lesson7B.positive_momentum db d a = true ∧
    (d, a) ∈ (run_pipeline db (Lesson7B.make_pipeline db) d d).index := by
  have hne30 : trailing db.close 30 d a ≠ [] := by
    simp [trailing, windowDates]
  have hne60 : trailing db.close 60 d a ≠ [] := by
    simp [trailing, windowDates]
  obtain ⟨v30, hv30, hpos30⟩ := momentum_pos _ hne30 h30
  obtain ⟨v60, hv60, hpos60⟩ := momentum_pos _ hne60 h60
  have h30m : Lesson7B.thirty_day_momentum db d a = some v30 := by
    unfold Lesson7B.thirty_day_momentum
    rw [momentumFactor_eq]
    exact hv30
  have h60m : Lesson7B.sixty_day_momentum db d a = some v60 := by
    unfold Lesson7B.sixty_day_momentum
    rw [momentumFactor_eq]
    exact hv60
  have hfge30 : fge (Lesson7B.thirty_day_momentum db) 0 d a = true := by
    simp [fge, h30m]
    exact le_of_lt hpos30
  have hfge60 : fge (Lesson7B.sixty_day_momentum db) 0 d a = true := by
    simp [fge, h60m]
    exact le_of_lt hpos60
  have hpm : Lesson7B.positive_momentum db d a = true := by
    simp [Lesson7B.positive_momentum, fand, hfge30, hfge60]
  refine ⟨⟨v30, h30m, hpos30⟩, ⟨v60, h60m, hpos60⟩, hpm, ?_⟩
  rw [mem_run_index]
  refine ⟨?_, ha, ?_⟩
  · have h1 : d + 1 - d = 1 := Nat.add_sub_cancel_left d 1
    simp [dateRange, h1]
  · show screenPass (Lesson7B.make_pipeline db) d a = true
    simpa [Lesson7B.make_pipeline, screenPass] using hpm

set_option maxRecDepth 40000 in
/-- Witness for C8 at a concrete database with constant positive prices:
the filter passes and the row is emitted. -/
theorem positive_prices_give_positive_momentum_witness :
    Lesson7B.positive_momentum sampleDB 0 0 = true ∧
    (0, 0) ∈ (run_pipeline sampleDB
      (Lesson7B.make_pipeline sampleDB) 0 0).index := by
  have h := positive_prices_give_positive_momentum sampleDB 0 0 (by decide)
    (by with_unfolding_all decide) (by with_unfolding_all decide)
  exact ⟨h.2.2.1, h.2.2.2⟩

/-- C9: Every (date, asset) row the final Lesson 11 long/short pipeline
emits has `longs` True or `shorts` True, because its screen
`securities_to_trade` is their disjunction; and whenever more than 100
securities have a defined `percent_difference` value on the date, no
emitted row has both True, because the top 50 and the bottom 50 by
`percent_difference` are disjoint. -/
theorem long_short_screen_invariant (db : DataBase) (s e d : Date)
    (a : Asset)
    (hmem : (d, a) ∈ (run_pipeline db (Lesson11.make_pipeline db) s e).index) :
    (Lesson11.longs db d a = true ∨ Lesson11.shorts db d a = true) ∧
    (100 < Lesson11.definedCount db d →
      ¬(Lesson11.longs db d a = true ∧ Lesson11.shorts db d a = true)) := by
  have hstt : Lesson11.securities_to_trade db d a = true :=
    ((mem_run_index db (Lesson11.make_pipeline db) s e d a).1 hmem).2.2
  constructor
  · have h : Lesson11.shorts db d a = true ∨ Lesson11.longs db d a = true := by
      simpa [Lesson11.securities_to_trade, for_] using hstt
    exact h.symm
  · rintro hcount ⟨hl, hs⟩
    unfold Lesson11.longs fbottom at hl
    unfold Lesson11.shorts ftop at hs
    cases hv : Lesson11.percent_difference db d a with
    | none =>
      rw [hv] at hs
      simp at hs
    | some va =>
      rw [hv] at hs hl
      simp only [Bool.and_eq_true, decide_eq_true_eq] at hs hl
      obtain ⟨hamem, habove⟩ := hs
      obtain ⟨-, hbelow⟩ := hl
      have hpa : (va, a) ∈
          definedPairs db (Lesson11.percent_difference db) d :=
        mem_definedPairs db _ d a hamem va hv
      have hpart := rank_partition _
        (definedPairs_snd_nodup db (Lesson11.percent_difference db) d)
        (va, a) hpa
      unfold Lesson11.definedCount at hcount
      omega

set_option maxRecDepth 40000 in
/-- Witness for C9 at a concrete database: a row emitted by the Lesson 11
pipeline satisfies the invariant. -/
theorem long_short_screen_invariant_witness :
    (Lesson11.longs sampleDB 0 0 = true ∨
      Lesson11.shorts sampleDB 0 0 = true) ∧
    (100 < Lesson11.definedCount sampleDB 0 →
      ¬(Lesson11.longs sampleDB 0 0 = true ∧
        Lesson11.shorts sampleDB 0 0 = true)) :=
  long_short_screen_invariant sampleDB 0 0 0 0
    (by with_unfolding_all decide)

/-- C10: For an asset column on whose window every day's high price is at
least that day's low price (both present), the `ThirtyDayMeanDifference`
compute instantiated with high and low inputs outputs a non-negative
value: the NaN-ignoring mean of pointwise non-negative differences is
non-negative. -/
theorem high_low_mean_difference_nonneg (high low : WindowMatrix)
    (N j : ℕ) (hj : j < N) (hlen : high.length = low.length)
    (hne : high ≠ [])
    (hgl : ((column j high).zip (column j low)).all geVal = true) :
    ∃ v, (ThirtyDayMeanDifference.compute N high low).getD j none =
      some v ∧ 0 ≤ v := by
  have hgetD : (ThirtyDayMeanDifference.compute N high low).getD j none =
      nanmean (column j (matSub high low)) := by
    unfold ThirtyDayMeanDifference.compute nanmeanAxis0
    exact getD_map_range _ N j none hj
  have hcol : column j (matSub high low) =
      (column j high).zipWith optSub (column j low) :=
    column_matSub high low j
  have hclen : (column j high).length = (column j low).length := by
    simp [column, hlen]
  have hznn : ∀ x ∈ (column j high).zipWith optSub (column j low),
      ∃ q, x = some q ∧ 0 ≤ q :=
    zipWith_optSub_nonneg (column j high) (column j low) hclen hgl
  have hzne : (column j high).zipWith optSub (column j low) ≠ [] := by
    cases hh : high with
    | nil => exact absurd hh hne
    | cons r t =>
      cases hl : low with
      | nil =>
        rw [hh, hl] at hlen
        simp at hlen
      | cons r2 t2 =>
        simp [column]
  rw [hgetD, hcol]
  exact nanmean_nonneg_of _ hzne hznn

/-- Witness for C10 at the concrete windows `high = [[3]]`,
`low = [[1]]`. -/
theorem high_low_mean_difference_nonneg_witness :
    ∃ v, (ThirtyDayMeanDifference.compute 1 [[some 3]] [[some 1]]).getD
      0 none = some v ∧ 0 ≤ v :=
  high_low_mean_difference_nonneg [[some 3]] [[some 1]] 1 0 (by decide)
    (by decide) (by decide) (by decide)

end PipelineTutorial
